import Mathlib

/-!
# Verification of the lead-qualification and enrichment pipeline

Shallow embedding, in Lean 4, of the deterministic core of the
`internal-growth-tools` repository: the contact-selection algorithm of
`enrichContact` / `enrichContactApollo` (src/lib/linkedin-enricher.ts), the
deterministic pre-filter (src/lib/location-filter.ts), the error funnelling of
the ICP qualifier (`filterByICP` / `analyzeLead`), the per-lead enrichment
status logic of the PATCH route, the CSV export (`convertToCSV`), the batch /
resume orchestration of the enricher page, the checkpoint loader
(`loadProgress`), and the batch ICP-filter route.

JavaScript strings are embedded as Lean `String`s (substring tests via
`List Char` infixes), JS numbers carrying provider ratings as `ℚ`, optional /
possibly-`undefined` values as `Option`, and thrown exceptions as `Except`.
-/

namespace GrowthTools

/-- Containment of `sub` as a contiguous run inside `l`. -/
def charsContain (l sub : List Char) : Bool :=
  l.tails.any (fun t => sub.isPrefixOf t)

/-- JS `s.includes(sub)`: substring containment test. -/
def jsIncludes (s sub : String) : Bool :=
  charsContain s.toList sub.toList

/-- JS `s.toLowerCase()` (the strings in this code base are ASCII). -/
def jsToLower (s : String) : String :=
  (s.toList.map Char.toLower).asString

/-- JS `s.trim()`: strip whitespace from both ends. -/
def jsTrim (s : String) : String :=
  ((s.toList.dropWhile Char.isWhitespace).reverse.dropWhile Char.isWhitespace).reverse.asString

/-- JS `s.split(sep)` for a single-character separator. -/
def splitChar (sep : Char) : List Char → List (List Char)
  | [] => [[]]
  | c :: rest =>
    if c = sep then [] :: splitChar sep rest
    else
      match splitChar sep rest with
      | f :: fs => (c :: f) :: fs
      | [] => [[c]]

/-- JS `x || dflt` for an optional string: `undefined`/`null` and the empty
string (both falsy) fall through to the default. -/
def jsOrString (s : Option String) (dflt : String) : String :=
  match s with
  | some v => if v = "" then dflt else v
  | none => dflt

/-- JS `x || ""` applied to an optional string field. -/
def jsOrEmpty (s : Option String) : String :=
  match s with
  | some v => v
  | none => ""

/-- JS truthiness of an optional string (`undefined` and `""` are falsy). -/
def truthyStr (s : Option String) : Bool :=
  match s with
  | some v => v ≠ ""
  | none => false

/-! ## Contact Resolver: email selection (src/lib/linkedin-enricher.ts)

`enrichContact` receives a list of contact records from the provider and
selects at most one email.  A contact record carries `type`, `value`,
`subType` and a numeric `rating`. -/
/-- One provider contact record (shape of the Clado `contacts[]` entries). -/
structure CladoContact where
  type : String
  value : String
  subType : String
  rating : Option ℚ
  deriving DecidableEq, Repr

/-- The fixed deny-list of free/personal mail domains (`personalDomains` in
`enrichContact`, `enrichContactApollo`). -/
def personalDomains : List String :=
  ["gmail.com", "yahoo.com", "aol.com", "hotmail.com", "outlook.com",
   "icloud.com", "me.com", "mac.com", "live.com", "msn.com",
   "ymail.com", "rocketmail.com", "googlemail.com", "protonmail.com",
   "mail.com", "zoho.com", "gmx.com", "inbox.com"]

/-- Deny-list test `isPersonalEmail`: lowercase the address, split at `@`, and test the
domain part against the deny-list (JS `split('@')[1]` is the segment after
the first `@`; a missing segment never matches). -/
def isPersonalEmail (email : String) : Bool :=
  match (splitChar '@' (jsToLower email).toList).get? 1 with
  | some domain => personalDomains.contains domain.asString
  | none => false

/-- Rating used by the sort comparator: JS `c.rating || 0`. -/
def ratingOf (c : CladoContact) : ℚ :=
  c.rating.getD 0

/-- Insert one contact into a list that is already sorted by descending
rating, after every element of greater-or-equal rating (the stable position,
matching the ECMAScript stable `Array.prototype.sort`). -/
def insertByRating (c : CladoContact) : List CladoContact → List CladoContact
  | [] => [c]
  | d :: l => if ratingOf c ≤ ratingOf d then d :: insertByRating c l else c :: d :: l

/-- JS `prioritizedEmails.sort((a, b) => (b.rating || 0) - (a.rating || 0))`:
stable sort by descending rating. -/
def sortByRatingDesc (l : List CladoContact) : List CladoContact :=
  l.foldl (fun acc c => insertByRating c acc) []

/-- The email-selection algorithm of `enrichContact`
(src/lib/linkedin-enricher.ts lines 285-332): keep `type === "email"`
records, bucket them into `verified` / `work` / `professional` sub-types with
personal domains excluded from each bucket, concatenate the buckets in that
order, sort the concatenation by descending rating, and take the first
element (`prioritizedEmails[0] || null`). -/
def selectBestEmail (contacts : List CladoContact) : Option CladoContact :=
  let emails := contacts.filter (fun c => c.type == "email")
  let verifiedEmails :=
    emails.filter (fun c => c.subType == "verified" && !(isPersonalEmail c.value))
  let workEmails :=
    emails.filter (fun c => c.subType == "work" && !(isPersonalEmail c.value))
  let professionalEmails :=
    emails.filter (fun c => c.subType == "professional" && !(isPersonalEmail c.value))
  let prioritizedEmails := verifiedEmails ++ workEmails ++ professionalEmails
  (sortByRatingDesc prioritizedEmails).head?

/-- In `enrichContactApollo` the single Apollo email is dropped when its domain
is personal (`if (email && isPersonalEmail(email)) filteredEmail = null`). -/
def apolloFilterPersonal (email : Option String) : Option String :=
  match email with
  | some e => if e ≠ "" && isPersonalEmail e then none else some e
  | none => none

/-- The `email` field of the Apollo result: `filteredEmail || undefined`. -/
def apolloResultEmail (email : Option String) : Option String :=
  match apolloFilterPersonal email with
  | some e => if e = "" then none else some e
  | none => none

/-! ## Deterministic Pre-Filter (src/lib/location-filter.ts) -/
/-- The `US_STATES` list (full names, lowercase). -/
def US_STATES : List String :=
  ["alabama", "alaska", "arizona", "arkansas", "california", "colorado",
   "connecticut", "delaware", "florida", "georgia", "hawaii", "idaho",
   "illinois", "indiana", "iowa", "kansas", "kentucky", "louisiana",
   "maine", "maryland", "massachusetts", "michigan", "minnesota",
   "mississippi", "missouri", "montana", "nebraska", "nevada",
   "new hampshire", "new jersey", "new mexico", "new york",
   "north carolina", "north dakota", "ohio", "oklahoma", "oregon",
   "pennsylvania", "rhode island", "south carolina", "south dakota",
   "tennessee", "texas", "utah", "vermont", "virginia", "washington",
   "west virginia", "wisconsin", "wyoming"]

/-- The `US_STATE_ABBREV` list. -/
def US_STATE_ABBREV : List String :=
  ["al", "ak", "az", "ar", "ca", "co", "ct", "de", "fl", "ga", "hi", "id",
   "il", "in", "ia", "ks", "ky", "la", "me", "md", "ma", "mi", "mn", "ms",
   "mo", "mt", "ne", "nv", "nh", "nj", "nm", "ny", "nc", "nd", "oh", "ok",
   "or", "pa", "ri", "sc", "sd", "tn", "tx", "ut", "vt", "va", "wa", "wv",
   "wi", "wy"]

/-- The `US_CITIES` list. -/
def US_CITIES : List String :=
  ["san francisco", "sf", "los angeles", "la", "new york", "nyc", "brooklyn",
   "manhattan", "queens", "bronx", "chicago", "houston", "phoenix", "philadelphia",
   "san antonio", "san diego", "dallas", "san jose", "austin", "jacksonville",
   "fort worth", "columbus", "charlotte", "indianapolis", "seattle", "denver",
   "washington dc", "dc", "boston", "el paso", "nashville", "detroit",
   "oklahoma city", "portland", "las vegas", "memphis", "louisville",
   "baltimore", "milwaukee", "albuquerque", "tucson", "fresno", "mesa",
   "sacramento", "atlanta", "kansas city", "colorado springs", "raleigh",
   "miami", "long beach", "virginia beach", "omaha", "oakland", "minneapolis",
   "tulsa", "arlington", "tampa", "new orleans", "wichita", "cleveland",
   "bakersfield", "aurora", "anaheim", "honolulu", "santa ana", "riverside",
   "corpus christi", "lexington", "stockton", "henderson", "saint paul",
   "cincinnati", "st. louis", "pittsburgh", "greensboro", "lincoln", "plano",
   "anchorage", "orlando", "irvine", "newark", "toledo", "durham", "chula vista",
   "fort wayne", "jersey city", "st. petersburg", "laredo", "madison",
   "chandler", "buffalo", "lubbock", "scottsdale", "reno", "glendale",
   "gilbert", "winston-salem", "north las vegas", "norfolk", "chesapeake",
   "garland", "irving", "hialeah", "fremont", "boise", "richmond",
   "baton rouge", "spokane", "des moines", "tacoma", "san bernardino",
   "modesto", "fontana", "santa clarita", "birmingham", "oxnard",
   "fayetteville", "moreno valley", "rochester", "glendale", "huntington beach",
   "salt lake city", "grand rapids", "amarillo", "yonkers", "aurora",
   "montgomery", "akron", "little rock", "huntsville", "augusta",
   "port st. lucie", "grand prairie", "mobile", "tallahassee", "knoxville",
   "worcester", "newport news", "brownsville", "santa rosa", "providence",
   "overland park", "garden grove", "chattanooga", "oceanside", "jackson",
   "fort lauderdale", "santa clara", "rancho cucamonga", "ontario", "salem",
   "eugene", "lancaster", "pembroke pines", "hayward", "corona", "clarksville",
   "lakewood", "springfield", "alexandria", "sunnyvale", "escondido",
   "joliet", "naperville", "bellevue", "cary", "pasadena", "boulder",
   "mountain view", "palo alto", "menlo park", "redwood city", "cupertino",
   "santa monica", "berkeley"]

/-- The `NON_US_INDICATORS` deny-list. -/
def NON_US_INDICATORS : List String :=
  ["uk", "united kingdom", "london", "england", "scotland", "wales", "ireland",
   "canada", "toronto", "vancouver", "montreal", "ottawa", "calgary",
   "europe", "european", "eu",
   "australia", "sydney", "melbourne", "brisbane", "perth",
   "new zealand", "auckland", "wellington",
   "singapore", "hong kong", "tokyo", "japan", "china", "beijing", "shanghai",
   "india", "bangalore", "mumbai", "delhi", "hyderabad", "chennai", "pune",
   "germany", "berlin", "munich", "france", "paris", "netherlands", "amsterdam",
   "spain", "madrid", "barcelona", "italy", "rome", "milan",
   "sweden", "stockholm", "denmark", "copenhagen", "norway", "oslo",
   "switzerland", "zurich", "poland", "warsaw", "israel", "tel aviv",
   "brazil", "mexico", "argentina", "chile", "colombia"]

/-- Result record of the location sub-check. -/
structure LocationFilterResult where
  isUS : Bool
  confidence : String
  reason : String
  deriving DecidableEq, Repr

/-- Separator class of the JS regex `[\s,.-]+` used to split a location into
words before the state-abbreviation check. -/
def isLocSep (c : Char) : Bool :=
  c.isWhitespace || c = ',' || c = '.' || c = '-'

/-- Split on a character class.  The JS regex `+` collapses separator runs;
the resulting extra empty tokens produced here never match any abbreviation,
so the word lookup behaves identically. -/
def splitPred (sep : Char → Bool) : List Char → List (List Char)
  | [] => [[]]
  | c :: rest =>
    if sep c then [] :: splitPred sep rest
    else
      match splitPred sep rest with
      | f :: fs => (c :: f) :: fs
      | [] => [[c]]

/-- JS `s.toUpperCase()` (ASCII). -/
def jsToUpper (s : String) : String :=
  (s.toList.map Char.toUpper).asString

/-- The location check `isUSLocation` (src/lib/location-filter.ts lines 119-208), with the
branches in source order: missing/blank location, the bare-remote forms, the
remote-plus-US-substring acceptance, the non-US indicator scan, the explicit
US mention, state names, state abbreviations (on split words), cities, and
the ambiguous fallback. -/
def isUSLocation (location : Option String) : LocationFilterResult :=
  match location with
  | none => ⟨false, "low", "No location provided"⟩
  | some s =>
    if jsTrim s = "" then ⟨false, "low", "No location provided"⟩
    else
      let loc := jsTrim (jsToLower s)
      if loc = "remote" ∨ loc = "remote worldwide" ∨ loc = "fully remote" then
        ⟨false, "high", "Remote location without US specification"⟩
      else if jsIncludes loc "remote" &&
          (jsIncludes loc "us" || jsIncludes loc "usa" || jsIncludes loc "united states") then
        ⟨true, "high", "Remote with US specification"⟩
      else
        match NON_US_INDICATORS.find? (fun nonUS => jsIncludes loc nonUS) with
        | some nonUS => ⟨false, "high", "Non-US location detected: " ++ nonUS⟩
        | none =>
          if jsIncludes loc "united states" || jsIncludes loc "usa" || loc = "us" then
            ⟨true, "high", "Explicit US mention"⟩
          else
            match US_STATES.find? (fun state => jsIncludes loc state) with
            | some state => ⟨true, "high", "US state detected: " ++ state⟩
            | none =>
              match (splitPred isLocSep loc.toList).find?
                  (fun word => US_STATE_ABBREV.contains word.asString) with
              | some word =>
                ⟨true, "high", "US state abbreviation detected: " ++ jsToUpper word.asString⟩
              | none =>
                match US_CITIES.find? (fun city => jsIncludes loc city) with
                | some city => ⟨true, "high", "US city detected: " ++ city⟩
                | none => ⟨false, "low", "Location cannot be determined as US"⟩

/-- The follower metric as it reaches `checkFollowerCount`: absent
(`undefined`), the empty string, a string that is not valid JSON, a string
parsing to JSON with or without a numeric `followers_count`, or an object
with an optional `followers_count`. -/
inductive PublicMetrics where
  | absent
  | emptyStr
  | strInvalid
  | strParsed (followers : Option Int)
  | objMetrics (followers : Option Int)
  deriving DecidableEq, Repr

/-- Result record of the follower-count sub-check. -/
structure FollowerFilterResult where
  isValid : Bool
  followerCount : Option Int
  reason : String
  deriving DecidableEq, Repr

/-- The `followers_count` value visible to the check, if any. -/
def PublicMetrics.followers : PublicMetrics → Option Int
  | .absent => none
  | .emptyStr => none
  | .strInvalid => none
  | .strParsed f => f
  | .objMetrics f => f

/-- Null test plus range check shared by both parsed shapes (the tail of
`checkFollowerCount` once `followerCount` has been extracted). -/
def checkRange (followerCount : Option Int) : FollowerFilterResult :=
  match followerCount with
  | none => ⟨true, none, "No followers_count in data (skipped filter)"⟩
  | some n =>
    if n < 100 then ⟨false, some n, "Too few followers: " ++ toString n ++ " (minimum 100)"⟩
    else if n > 5000 then
      ⟨false, some n, "Too many followers: " ++ toString n ++ " (maximum 5000)"⟩
    else ⟨true, some n, "Valid follower count: " ++ toString n⟩

/-- The follower check `checkFollowerCount` (src/lib/location-filter.ts lines 210-272): missing
or unparsable metrics pass through; a present count is rejected exactly
outside the 100-5000 range, with the value quoted in the reason. -/
def checkFollowerCount : PublicMetrics → FollowerFilterResult
  | .absent => ⟨true, none, "No follower data (skipped filter)"⟩
  | .emptyStr => ⟨true, none, "No follower data (skipped filter)"⟩
  | .strInvalid => ⟨true, none, "Invalid public_metrics (skipped filter)"⟩
  | .strParsed f => checkRange f
  | .objMetrics f => checkRange f

/-! ## ICP Qualifier (src/lib/linkedin-enricher.ts `filterByICP`,
src/lib/twitter-verifier.ts `analyzeLead`) -/
inductive Decision where
  | ACCEPT
  | REJECT
  deriving DecidableEq, Repr

inductive Confidence where
  | HIGH
  | MEDIUM
  | LOW
  deriving DecidableEq, Repr

/-- The `extracted_info` sub-record of a qualification verdict. -/
structure ExtractedInfo where
  company : Option String
  role : Option String
  seniority_level : Option String
  estimated_company_size : Option String
  deriving DecidableEq, Repr

/-- Records `ICPFilterResult` / `FilterResult`: the qualification verdict. -/
structure ICPFilterResult where
  decision : Decision
  reasoning : String
  confidence : Confidence
  extracted_info : Option ExtractedInfo
  deriving DecidableEq, Repr

/-- Everything the qualifier's control flow can observe about one completion
round-trip, in the order the code tests it: the `fetch` call rejecting (or
any other exception thrown inside the `try`), a non-OK HTTP status, a
provider-reported error payload in `choices[0].error` (with its optional
`message`), a response with no `choices[0].message.content`, and finally a
content string whose code-fence stripping + `JSON.parse` either throws (the
`Except.error` message is the caught exception text) or yields a parsed
verdict. -/
inductive LLMOutcome where
  | fetchThrow (msg : String)
  | httpError (status : Nat)
  | providerError (msg : Option String)
  | noContent
  | content (parsed : Except String ICPFilterResult)
  deriving Repr

/-- The `filterByICP` / `analyzeLead` error funnelling: every failure mode is
converted into a `REJECT`/`LOW` verdict with a diagnostic reasoning string;
only a successfully parsed content object is returned as-is. -/
def filterByICP : LLMOutcome → ICPFilterResult
  | .fetchThrow msg => ⟨.REJECT, "Error during analysis: " ++ msg, .LOW, none⟩
  | .httpError status => ⟨.REJECT, "OpenRouter API error: " ++ toString status, .LOW, none⟩
  | .providerError msg =>
    ⟨.REJECT, "Provider error: " ++ jsOrString msg "Unknown error", .LOW, none⟩
  | .noContent => ⟨.REJECT, "No content in AI response", .LOW, none⟩
  | .content (.error msg) => ⟨.REJECT, "Error during analysis: " ++ msg, .LOW, none⟩
  | .content (.ok r) => r

/-- An outcome on which the qualifier round-trip failed. -/
def LLMOutcome.isFailure : LLMOutcome → Bool
  | .content (.ok _) => false
  | _ => true

/-- A batch fed to the qualifier: `filterByICP` never throws, so the
`Promise.allSettled` in `processBatch` sees only fulfilled promises and the
batch result is the verdict of each item, in order. -/
def qualifyBatch (outcomes : List LLMOutcome) : List ICPFilterResult :=
  outcomes.map filterByICP

/-! ## Batch orchestration building block: fixed-size chunking -/
/-- Single pass of the chunking loop: `k` is the remaining capacity of the
chunk being built and `cur` its elements in reverse. -/
def chunksAux (n : Nat) : List α → Nat → List α → List (List α)
  | [], _, cur => if cur.isEmpty then [] else [cur.reverse]
  | x :: xs, k, cur =>
    if k ≤ 1 then (x :: cur).reverse :: chunksAux n xs n []
    else chunksAux n xs (k - 1) (x :: cur)

/-- Partition a list into consecutive chunks of `n` (the
`for (let i = 0; i < xs.length; i += n) xs.slice(i, i + n)` loops). -/
def chunksOf (n : Nat) (l : List α) : List (List α) :=
  chunksAux n l n []

/-! ## Batch ICP-filter route (src/app/api/linkedin-enricher/filter/route.ts) -/
/-- Profile records (`LinkedInProfile`) produced by `fetchPostReactions`. -/
structure LinkedInProfile where
  name : String
  headline : String
  linkedin_url : String
  reaction_type : Option String
  timestamp : Option String
  deriving DecidableEq, Repr

/-- Response of the filter route: an error status with message, or the list
of per-profile verdicts. -/
inductive FilterRouteResponse where
  | err (status : Nat) (msg : String)
  | ok (results : List (LinkedInProfile × ICPFilterResult))
  deriving DecidableEq, Repr

/-- Number of profiles a response shows were qualified. -/
def FilterRouteResponse.processedCount : FilterRouteResponse → Nat
  | .err _ _ => 0
  | .ok results => results.length

/-- Cap `MAX_PROFILES_PER_REQUEST` (filter route line 6). -/
def MAX_PROFILES_PER_REQUEST : Nat := 10

/-- The `POST` handler of the batch ICP-filter route: missing key is a 500;
a non-array `profiles` (`none` here), an empty array, and an array longer
than `MAX_PROFILES_PER_REQUEST` are each a 400 before any qualification
happens; otherwise the profiles are qualified in `BATCH_SIZE = 3` chunks.
The per-profile qualifier round-trip is abstracted as `verdictOf`. -/
def filterRoutePost (hasKey : Bool) (profiles : Option (List LinkedInProfile))
    (verdictOf : LinkedInProfile → ICPFilterResult) : FilterRouteResponse :=
  if !hasKey then
    .err 500 "OPENROUTER_API_KEY not configured. Please add it to your Vercel environment variables."
  else
    match profiles with
    | none => .err 400 "Invalid request: profiles must be an array"
    | some l =>
      if l.length = 0 then .err 400 "No profiles provided for filtering"
      else if l.length > MAX_PROFILES_PER_REQUEST then
        .err 400 "Too many profiles. Please send max 10 profiles per request. Call this endpoint multiple times for larger batches."
      else
        .ok (((chunksOf 3 l).map (List.map (fun p => (p, verdictOf p)))).flatten)

/-! ## Per-lead enrichment status (PATCH handler of the enricher API route) -/
/-- Record `ContactData` as returned by the contact resolvers. -/
structure ContactData where
  email : Option String
  email_rating : Option Nat
  email_subtype : Option String
  phone : Option String
  phone_rating : Option Nat
  deriving DecidableEq, Repr

/-- The all-`undefined` contact record (`contact: {}`). -/
def emptyContact : ContactData := ⟨none, none, none, none, none⟩

inductive EnrichmentStatus where
  | SUCCESS
  | FAILED
  | PENDING
  deriving DecidableEq, Repr

/-- Record `EnrichedLead`. -/
structure EnrichedLead where
  profile : LinkedInProfile
  icp_result : ICPFilterResult
  contact : ContactData
  enrichment_status : EnrichmentStatus
  error : Option String
  deriving DecidableEq, Repr

/-- Per-lead branch of the PATCH handler: the resolver call either throws
(`Except.error` carries the caught message) or returns a contact record;
the lead is `SUCCESS` exactly on a truthy `contact.email`, otherwise
`FAILED` with `"No email found"`, and a thrown resolver error becomes
`FAILED` with the error message.  `contact.phone` is never consulted. -/
def enrichLead (profile : LinkedInProfile) (icp : ICPFilterResult)
    (outcome : Except String ContactData) : EnrichedLead :=
  match outcome with
  | .ok contact =>
    if truthyStr contact.email then
      ⟨profile, icp, contact, .SUCCESS, none⟩
    else
      ⟨profile, icp, emptyContact, .FAILED, some "No email found"⟩
  | .error msg => ⟨profile, icp, emptyContact, .FAILED, some msg⟩

/-! ## Checkpoint loader (src/app/linkedin-enricher/page.tsx `loadProgress`) -/
/-- The checkpoint skeleton relevant to staleness: the pipeline stage, the
enrichment cursor and the `savedAt` timestamp (milliseconds). -/
structure SavedState where
  stage : String
  enrichIndex : Nat
  savedAt : Int
  deriving DecidableEq, Repr

/-- What `localStorage.getItem(STORAGE_KEY)` can yield: nothing, a string
`JSON.parse` throws on (the catch returns `null`), or a parsed state. -/
inductive StoredValue where
  | absent
  | corrupt
  | valid (s : SavedState)
  deriving DecidableEq, Repr

/-- Loader `loadProgress`: return the stored state only when it parses and is less
than `24 * 60 * 60 * 1000` ms old; otherwise `null`. -/
def loadProgress (now : Int) : StoredValue → Option SavedState
  | .absent => none
  | .corrupt => none
  | .valid s => if now - s.savedAt < 24 * 60 * 60 * 1000 then some s else none

/-! ## Enrichment orchestration and resume (src/app/linkedin-enricher/page.tsx)

The per-lead round-trip through the PATCH endpoint is abstracted as a
function `f` on leads (the endpoint is deterministic in this model); the
orchestration itself is embedded exactly: the endpoint processes a request
in `ENRICHMENT_BATCH_SIZE = 5` chunks, the page splits the lead list into
`BATCH_SIZE = 5` batches and runs them in parallel groups of
`PARALLEL_BATCHES = 4`, appending each settled group's results in batch
order. -/
/-- The PATCH endpoint on one request body: its leads processed in chunks of
5, results concatenated in order. -/
def patchEnrichList (f : α → α) (leads : List α) : List α :=
  ((chunksOf 5 leads).map (List.map f)).flatten

/-- Orchestration of `handleEnrich`: batches of 5, parallel groups of 4 batches, results
appended group by group, batch by batch, in original order. -/
def handleEnrichModel (f : α → α) (leads : List α) : List α :=
  ((chunksOf 4 (chunksOf 5 leads)).map
    (fun grp => (grp.map (fun batch => patchEnrichList f batch)).flatten)).flatten

/-- Orchestration of `resumeEnriching` on a checkpoint with cursor `enrichIndex`: copy the
first `enrichIndex` saved results verbatim, then run the same batch pipeline
over `saved.slice(enrichIndex)` only. -/
def resumeEnrichingModel (f : α → α) (saved : List α) (enrichIndex : Nat) : List α :=
  saved.take enrichIndex ++ handleEnrichModel f (saved.drop enrichIndex)

/-- The checkpoint `results` field `handleEnrich` saves at cursor `k`:
`[...enrichedLeads, ...results.slice(processed)]` — the first `k` leads
enriched, the rest still pending. -/
def checkpointResults (f : α → α) (leads : List α) (k : Nat) : List α :=
  (leads.take k).map f ++ leads.drop k

/-! ## CSV export (src/lib/linkedin-enricher.ts `convertToCSV`)

The serializer is embedded at the character level.  Only the `headline` and
`icp_reasoning` columns are wrapped in double quotes (with `"` doubled); all
other columns are emitted verbatim and joined with `,`; rows are joined with
newlines after the fixed header row. -/
/-- Character-level form of JS `s.replace(/"/g, '""')`. -/
def escapeQuotes : List Char → List Char
  | [] => []
  | c :: rest => if c = '"' then '"' :: '"' :: escapeQuotes rest else c :: escapeQuotes rest

/-- Rendering of `` `"${s.replace(/"/g, '""')}"` ``. -/
def quoteField (s : String) : List Char :=
  '"' :: (escapeQuotes s.toList ++ ['"'])

/-- Rendering of JS `x || ""` for an optional numeric rating cell (a rating
of `0` is falsy and renders as the empty cell, like `undefined`). -/
def ratingCell (r : Option Nat) : String :=
  match r with
  | some n => if n = 0 then "" else toString n
  | none => ""

def decisionStr : Decision → String
  | .ACCEPT => "ACCEPT"
  | .REJECT => "REJECT"

def confidenceStr : Confidence → String
  | .HIGH => "HIGH"
  | .MEDIUM => "MEDIUM"
  | .LOW => "LOW"

/-- The fixed `headers` array of `convertToCSV`. -/
def csvHeaders : List String :=
  ["name", "headline", "linkedin_url", "reaction_type", "email", "email_rating",
   "email_type", "phone", "phone_rating", "icp_decision", "icp_reasoning",
   "icp_confidence", "extracted_company", "extracted_role", "extracted_seniority",
   "estimated_company_size"]

/-- The sixteen rendered cells of one lead's row, in header order (the
`switch (header)` of `convertToCSV`). -/
def leadCells (lead : EnrichedLead) : List (List Char) :=
  [lead.profile.name.toList,
   quoteField lead.profile.headline,
   lead.profile.linkedin_url.toList,
   (jsOrEmpty lead.profile.reaction_type).toList,
   (jsOrEmpty lead.contact.email).toList,
   (ratingCell lead.contact.email_rating).toList,
   (jsOrEmpty lead.contact.email_subtype).toList,
   (jsOrEmpty lead.contact.phone).toList,
   (ratingCell lead.contact.phone_rating).toList,
   (decisionStr lead.icp_result.decision).toList,
   quoteField lead.icp_result.reasoning,
   (confidenceStr lead.icp_result.confidence).toList,
   (jsOrEmpty (lead.icp_result.extracted_info.bind (fun i => i.company))).toList,
   (jsOrEmpty (lead.icp_result.extracted_info.bind (fun i => i.role))).toList,
   (jsOrEmpty (lead.icp_result.extracted_info.bind (fun i => i.seniority_level))).toList,
   (jsOrEmpty (lead.icp_result.extracted_info.bind (fun i => i.estimated_company_size))).toList]

/-- JS `Array.prototype.join(sep)` on character lists. -/
def joinSep (sep : List Char) : List (List Char) → List Char
  | [] => []
  | [x] => x
  | x :: y :: rest => x ++ sep ++ joinSep sep (y :: rest)

/-- The serializer `convertToCSV` (src/lib/linkedin-enricher.ts lines 356-421): empty input
gives the empty string; otherwise the header row followed by one row per
lead, rows joined with `\n` and cells joined with `,`. -/
def convertToCSV (leads : List EnrichedLead) : List Char :=
  match leads with
  | [] => []
  | _ =>
    joinSep ['\n']
      (joinSep [','] (csvHeaders.map String.toList) ::
        leads.map (fun lead => joinSep [','] (leadCells lead)))

/-- Modelled from the spec: the export is "re-parsed"; the repository parses
CSV through the external PapaParse library (`parseCSV` in
src/lib/twitter-verifier.ts), which is not part of the sources.  This is the
standard RFC-4180 reader it implements: a state machine over the characters
with a quote flag; `""` inside quotes is a literal quote, `,` and `\n`
outside quotes end the cell and the record. -/
def csvParseAux : Bool → List Char → List Char → List (List Char) →
    List (List (List Char)) → List (List (List Char))
  | _, [], curF, curR, acc => ((curF.reverse :: curR).reverse :: acc).reverse
  | true, '"' :: '"' :: rest, curF, curR, acc => csvParseAux true rest ('"' :: curF) curR acc
  | true, '"' :: rest, curF, curR, acc => csvParseAux false rest curF curR acc
  | true, c :: rest, curF, curR, acc => csvParseAux true rest (c :: curF) curR acc
  | false, c :: rest, curF, curR, acc =>
    if c = '"' then csvParseAux true rest curF curR acc
    else if c = ',' then csvParseAux false rest [] (curF.reverse :: curR) acc
    else if c = '\n' then csvParseAux false rest [] [] ((curF.reverse :: curR).reverse :: acc)
    else csvParseAux false rest (c :: curF) curR acc

/-- Parse a whole delimited text into records of cells. -/
def csvParse (input : List Char) : List (List (List Char)) :=
  csvParseAux false input [] [] []

/-- A cell with no delimiter, quote or newline characters. -/
def noSpecials (s : List Char) : Bool :=
  s.all (fun c => c ≠ ',' && c ≠ '"' && c ≠ '\n')

/-- Proof-layer view of a rendered cell: emitted verbatim or quote-wrapped. -/
inductive RCell where
  | raw (s : List Char)
  | quoted (s : String)

def RCell.render : RCell → List Char
  | .raw s => s
  | .quoted s => quoteField s

/-- The text a reader should recover for the cell. -/
def RCell.value : RCell → List Char
  | .raw s => s
  | .quoted s => s.toList

/-- A cell the serializer emits soundly: raw cells must be delimiter-free,
quoted cells are always fine. -/
def RCell.ok : RCell → Bool
  | .raw s => noSpecials s
  | .quoted _ => true

/-- The sixteen cells of a lead row with their quoting discipline. -/
def leadRCells (lead : EnrichedLead) : List RCell :=
  [.raw lead.profile.name.toList,
   .quoted lead.profile.headline,
   .raw lead.profile.linkedin_url.toList,
   .raw (jsOrEmpty lead.profile.reaction_type).toList,
   .raw (jsOrEmpty lead.contact.email).toList,
   .raw (ratingCell lead.contact.email_rating).toList,
   .raw (jsOrEmpty lead.contact.email_subtype).toList,
   .raw (jsOrEmpty lead.contact.phone).toList,
   .raw (ratingCell lead.contact.phone_rating).toList,
   .raw (decisionStr lead.icp_result.decision).toList,
   .quoted lead.icp_result.reasoning,
   .raw (confidenceStr lead.icp_result.confidence).toList,
   .raw (jsOrEmpty (lead.icp_result.extracted_info.bind (fun i => i.company))).toList,
   .raw (jsOrEmpty (lead.icp_result.extracted_info.bind (fun i => i.role))).toList,
   .raw (jsOrEmpty (lead.icp_result.extracted_info.bind (fun i => i.seniority_level))).toList,
   .raw (jsOrEmpty (lead.icp_result.extracted_info.bind (fun i => i.estimated_company_size))).toList]

/-- All unquoted cells of the row are delimiter-free (the hypothesis the
round-trip needs; the two quoted cells are unconstrained). -/
def rawCellsOk (lead : EnrichedLead) : Bool :=
  (leadRCells lead).all RCell.ok

/-- The cell texts a reader recovers from a lead's row. -/
def leadRecovered (lead : EnrichedLead) : List (List Char) :=
  [lead.profile.name.toList,
   lead.profile.headline.toList,
   lead.profile.linkedin_url.toList,
   (jsOrEmpty lead.profile.reaction_type).toList,
   (jsOrEmpty lead.contact.email).toList,
   (ratingCell lead.contact.email_rating).toList,
   (jsOrEmpty lead.contact.email_subtype).toList,
   (jsOrEmpty lead.contact.phone).toList,
   (ratingCell lead.contact.phone_rating).toList,
   (decisionStr lead.icp_result.decision).toList,
   lead.icp_result.reasoning.toList,
   (confidenceStr lead.icp_result.confidence).toList,
   (jsOrEmpty (lead.icp_result.extracted_info.bind (fun i => i.company))).toList,
   (jsOrEmpty (lead.icp_result.extracted_info.bind (fun i => i.role))).toList,
   (jsOrEmpty (lead.icp_result.extracted_info.bind (fun i => i.seniority_level))).toList,
   (jsOrEmpty (lead.icp_result.extracted_info.bind (fun i => i.estimated_company_size))).toList]

/-- A remainder that does not start with a quote (what follows a cell in
well-formed output: a comma, a newline, or the end). -/
def headOk (rest : List Char) : Bool :=
  match rest with
  | '"' :: _ => false
  | _ => true

def headerRCells : List RCell := csvHeaders.map (fun h => RCell.raw h.toList)

theorem chunksAux_flatten (n : Nat) (l : List α) :
    ∀ (k : Nat) (cur : List α), (chunksAux n l k cur).flatten = cur.reverse ++ l := by
  induction l with
  | nil =>
    intro k cur
    cases cur <;> simp [chunksAux]
  | cons x xs ih =>
    intro k cur
    by_cases hk : k ≤ 1
    · simp [chunksAux, hk, ih]
    · simp [chunksAux, hk, ih]

theorem chunksOf_flatten (n : Nat) (l : List α) : (chunksOf n l).flatten = l := by
  simpa using chunksAux_flatten n l n []

theorem chunksAux_map_flatten (n : Nat) (g : List α → List β) (f : α → β)
    (hg : ∀ chunk, g chunk = chunk.map f) (l : List α) :
    ∀ (k : Nat) (cur : List α),
    ((chunksAux n l k cur).map g).flatten = (cur.reverse ++ l).map f := by
  induction l with
  | nil =>
    intro k cur
    cases cur <;> simp [chunksAux, hg]
  | cons x xs ih =>
    intro k cur
    by_cases hk : k ≤ 1
    · simp [chunksAux, hk, ih, hg]
    · simp [chunksAux, hk, ih]

theorem chunksOf_map_join (n : Nat) (g : List α → List β) (l : List α)
    (hg : ∀ chunk, g chunk = chunk.map f) :
    ((chunksOf n l).map g).flatten = l.map f := by
  simpa using chunksAux_map_flatten n g f hg l n []

theorem patchEnrichList_eq_map (f : α → α) (leads : List α) :
    patchEnrichList f leads = leads.map f :=
  chunksOf_map_join 5 (List.map f) leads (fun _ => rfl)

theorem chunksAux_grp_flatten (n : Nat) (f : α → β) (L : List (List α)) :
    ∀ (k : Nat) (cur : List (List α)),
    ((chunksAux n L k cur).map (fun grp => grp.flatten.map f)).flatten
      = (cur.reverse ++ L).flatten.map f := by
  induction L with
  | nil =>
    intro k cur
    cases cur <;> simp [chunksAux]
  | cons x xs ih =>
    intro k cur
    by_cases hk : k ≤ 1
    · rw [chunksAux]
      simp only [if_pos hk, List.map_cons, List.flatten_cons, ih n []]
      simp [List.map_append, List.flatten_append, List.append_assoc]
    · rw [chunksAux]
      simp only [if_neg hk, ih (k - 1) (x :: cur)]
      simp [List.append_assoc]

theorem chunksOf_flatten_map_flatten (n : Nat) (f : α → β) (L : List (List α)) :
    ((chunksOf n L).map (fun grp => grp.flatten.map f)).flatten = L.flatten.map f := by
  simpa using chunksAux_grp_flatten n f L n []

theorem handleEnrichModel_eq_map (f : α → α) (leads : List α) :
    handleEnrichModel f leads = leads.map f := by
  unfold handleEnrichModel
  have h1 : (fun grp : List (List α) => (grp.map (fun batch => patchEnrichList f batch)).flatten)
      = (fun grp : List (List α) => grp.flatten.map f) := by
    funext grp
    simp only [patchEnrichList_eq_map]
    induction grp with
    | nil => simp
    | cons b t ih => simp only [List.map_cons, List.flatten_cons, ih, List.map_append]
  rw [h1, chunksOf_flatten_map_flatten, chunksOf_flatten]

theorem csvParseAux_raw (s : List Char) (h : noSpecials s = true) :
    ∀ (rest curF : List Char) (curR : List (List Char)) (acc : List (List (List Char))),
    csvParseAux false (s ++ rest) curF curR acc
      = csvParseAux false rest (s.reverse ++ curF) curR acc := by
  induction s with
  | nil => intro rest curF curR acc; simp
  | cons c s' ih =>
    intro rest curF curR acc
    simp only [noSpecials, List.all_cons, Bool.and_eq_true, decide_eq_true_eq] at h
    obtain ⟨⟨⟨hcm, hcq⟩, hcn⟩, hs'⟩ := h
    have step : csvParseAux false (c :: (s' ++ rest)) curF curR acc
        = csvParseAux false (s' ++ rest) (c :: curF) curR acc := by
      rw [csvParseAux.eq_def]
      simp [hcm, hcq, hcn]
    rw [List.cons_append, step, ih hs' rest (c :: curF) curR acc]
    simp [List.append_assoc]

theorem csvParseAux_escaped (s : List Char) :
    ∀ (rest curF : List Char) (curR : List (List Char)) (acc : List (List (List Char))),
    csvParseAux true (escapeQuotes s ++ rest) curF curR acc
      = csvParseAux true rest (s.reverse ++ curF) curR acc := by
  induction s with
  | nil => intro rest curF curR acc; simp [escapeQuotes]
  | cons c s' ih =>
    intro rest curF curR acc
    by_cases hc : c = '"'
    · subst hc
      have he : escapeQuotes ('"' :: s') = '"' :: '"' :: escapeQuotes s' := by
        simp [escapeQuotes]
      rw [he, List.cons_append, List.cons_append]
      have step : csvParseAux true ('"' :: ('"' :: (escapeQuotes s' ++ rest))) curF curR acc
          = csvParseAux true (escapeQuotes s' ++ rest) ('"' :: curF) curR acc := by
        rw [csvParseAux.eq_def]
        simp
      rw [step, ih rest ('"' :: curF) curR acc]
      simp [List.append_assoc]
    · have he : escapeQuotes (c :: s') = c :: escapeQuotes s' := by
        simp [escapeQuotes, hc]
      rw [he, List.cons_append]
      have step : csvParseAux true (c :: (escapeQuotes s' ++ rest)) curF curR acc
          = csvParseAux true (escapeQuotes s' ++ rest) (c :: curF) curR acc := by
        rw [csvParseAux.eq_def]
        simp [hc]
      rw [step, ih rest (c :: curF) curR acc]
      simp [List.append_assoc]

theorem csvParseAux_closeQuote (rest curF : List Char) (curR : List (List Char))
    (acc : List (List (List Char))) (h : headOk rest = true) :
    csvParseAux true ('"' :: rest) curF curR acc
      = csvParseAux false rest curF curR acc := by
  match rest, h with
  | [], _ =>
    rw [csvParseAux.eq_def]
    simp
  | c :: rest', h =>
    have hc : ¬ (c = '"') := by
      intro hceq; subst hceq; simp [headOk] at h
    rw [csvParseAux.eq_def]
    simp [hc]

theorem mem_insertByRating {a c : CladoContact} {l : List CladoContact}
    (h : a ∈ insertByRating c l) : a = c ∨ a ∈ l := by
  induction l with
  | nil => simpa [insertByRating] using h
  | cons d t ih =>
    simp only [insertByRating] at h
    split at h
    · rcases List.mem_cons.mp h with h | h
      · exact Or.inr (List.mem_cons.mpr (Or.inl h))
      · rcases ih h with h | h
        · exact Or.inl h
        · exact Or.inr (List.mem_cons.mpr (Or.inr h))
    · rcases List.mem_cons.mp h with h | h
      · exact Or.inl h
      · exact Or.inr h

theorem mem_sortByRatingDesc {a : CladoContact} {l : List CladoContact}
    (h : a ∈ sortByRatingDesc l) : a ∈ l := by
  suffices H : ∀ (l acc : List CladoContact),
      a ∈ l.foldl (fun acc c => insertByRating c acc) acc → a ∈ acc ∨ a ∈ l by
    rcases H l [] h with h' | h'
    · simp at h'
    · exact h'
  intro l
  induction l with
  | nil => intro acc h; exact Or.inl h
  | cons c t ih =>
    intro acc h
    rcases ih (insertByRating c acc) h with h' | h'
    · rcases mem_insertByRating h' with h'' | h''
      · exact Or.inr (by simp [h''])
      · exact Or.inl h''
    · exact Or.inr (by simp [h'])

/-- Any email selected by `selectBestEmail` came from one of the three
personal-domain-filtered buckets. -/
theorem selectBestEmail_not_personal {contacts : List CladoContact}
    {c : CladoContact} (h : selectBestEmail contacts = some c) :
    isPersonalEmail c.value = false := by
  unfold selectBestEmail at h
  have hmem : c ∈ sortByRatingDesc
      ((contacts.filter (fun c => c.type == "email")).filter
          (fun c => c.subType == "verified" && !(isPersonalEmail c.value)) ++
        (contacts.filter (fun c => c.type == "email")).filter
          (fun c => c.subType == "work" && !(isPersonalEmail c.value)) ++
        (contacts.filter (fun c => c.type == "email")).filter
          (fun c => c.subType == "professional" && !(isPersonalEmail c.value))) := by
    simp only [] at h
    exact List.mem_of_mem_head? (Option.mem_def.mpr h)
  have hmem' := mem_sortByRatingDesc hmem
  rcases List.mem_append.mp hmem' with h' | h'
  · rcases List.mem_append.mp h' with h'' | h''
    · have := (List.mem_filter.mp h'').2
      simp only [Bool.and_eq_true, Bool.not_eq_true'] at this
      exact this.2
    · have := (List.mem_filter.mp h'').2
      simp only [Bool.and_eq_true, Bool.not_eq_true'] at this
      exact this.2
  · have := (List.mem_filter.mp h').2
    simp only [Bool.and_eq_true, Bool.not_eq_true'] at this
    exact this.2

theorem csvParseAux_cell (cell : RCell) (hok : cell.ok = true) (rest : List Char)
    (hrest : headOk rest = true) (curR : List (List Char)) (acc : List (List (List Char))) :
    csvParseAux false (cell.render ++ rest) [] curR acc
      = csvParseAux false rest cell.value.reverse curR acc := by
  cases cell with
  | raw s => simpa using csvParseAux_raw s hok rest [] curR acc
  | quoted s =>
    show csvParseAux false (('"' :: (escapeQuotes s.toList ++ ['"'])) ++ rest) [] curR acc = _
    rw [List.cons_append]
    have step1 : csvParseAux false ('"' :: ((escapeQuotes s.toList ++ ['"']) ++ rest)) [] curR acc
        = csvParseAux true ((escapeQuotes s.toList ++ ['"']) ++ rest) [] curR acc := by
      rw [csvParseAux.eq_def]
      simp
    rw [step1, List.append_assoc, csvParseAux_escaped s.toList (['"'] ++ rest) [] curR acc]
    show csvParseAux true ('"' :: rest) (s.toList.reverse ++ []) curR acc = _
    rw [csvParseAux_closeQuote rest _ curR acc hrest]
    simp [RCell.value]

theorem csvParseAux_row_nl (c : RCell) (cs : List RCell)
    (hok : ∀ x ∈ c :: cs, RCell.ok x = true) :
    ∀ (rest : List Char) (curR : List (List Char)) (acc : List (List (List Char))),
    csvParseAux false (joinSep [','] ((c :: cs).map RCell.render) ++ ('\n' :: rest)) [] curR acc
      = csvParseAux false rest [] [] ((curR.reverse ++ (c :: cs).map RCell.value) :: acc) := by
  induction cs generalizing c with
  | nil =>
    intro rest curR acc
    show csvParseAux false (RCell.render c ++ ('\n' :: rest)) [] curR acc = _
    rw [csvParseAux_cell c (hok c (by simp)) _ (by simp [headOk]) curR acc]
    have step : csvParseAux false ('\n' :: rest) (RCell.value c).reverse curR acc
        = csvParseAux false rest [] [] ((((RCell.value c).reverse.reverse :: curR)).reverse :: acc) := by
      rw [csvParseAux.eq_def]
      simp
    rw [step]
    simp
  | cons c2 cs' ih =>
    intro rest curR acc
    have e1 : joinSep [','] ((c :: c2 :: cs').map RCell.render) ++ ('\n' :: rest)
        = RCell.render c ++ (',' :: (joinSep [','] ((c2 :: cs').map RCell.render) ++ ('\n' :: rest))) := by
      show (RCell.render c ++ [','] ++ joinSep [','] ((c2 :: cs').map RCell.render)) ++ ('\n' :: rest) = _
      simp
    rw [e1, csvParseAux_cell c (hok c (by simp)) _ (by simp [headOk]) curR acc]
    have step : csvParseAux false (',' :: (joinSep [','] ((c2 :: cs').map RCell.render) ++ ('\n' :: rest)))
          (RCell.value c).reverse curR acc
        = csvParseAux false (joinSep [','] ((c2 :: cs').map RCell.render) ++ ('\n' :: rest)) []
          ((RCell.value c).reverse.reverse :: curR) acc := by
      rw [csvParseAux.eq_def]
      simp
    rw [step, List.reverse_reverse, ih c2 (fun x hx => hok x (by simp at hx ⊢; tauto)) rest (RCell.value c :: curR) acc]
    simp

theorem csvParseAux_row_end (c : RCell) (cs : List RCell)
    (hok : ∀ x ∈ c :: cs, RCell.ok x = true) :
    ∀ (curR : List (List Char)) (acc : List (List (List Char))),
    csvParseAux false (joinSep [','] ((c :: cs).map RCell.render)) [] curR acc
      = ((curR.reverse ++ (c :: cs).map RCell.value) :: acc).reverse := by
  induction cs generalizing c with
  | nil =>
    intro curR acc
    show csvParseAux false (RCell.render c) [] curR acc = _
    have e0 : RCell.render c = RCell.render c ++ [] := by simp
    rw [e0, csvParseAux_cell c (hok c (by simp)) [] (by simp [headOk]) curR acc]
    rw [csvParseAux.eq_def]
    simp
  | cons c2 cs' ih =>
    intro curR acc
    have e1 : joinSep [','] ((c :: c2 :: cs').map RCell.render)
        = RCell.render c ++ (',' :: joinSep [','] ((c2 :: cs').map RCell.render)) := by
      show RCell.render c ++ [','] ++ joinSep [','] ((c2 :: cs').map RCell.render) = _
      simp
    rw [e1, csvParseAux_cell c (hok c (by simp)) _ (by simp [headOk]) curR acc]
    have step : csvParseAux false (',' :: joinSep [','] ((c2 :: cs').map RCell.render))
          (RCell.value c).reverse curR acc
        = csvParseAux false (joinSep [','] ((c2 :: cs').map RCell.render)) []
          ((RCell.value c).reverse.reverse :: curR) acc := by
      rw [csvParseAux.eq_def]
      simp
    rw [step, List.reverse_reverse, ih c2 (fun x hx => hok x (by simp at hx ⊢; tauto)) (RCell.value c :: curR) acc]
    simp

theorem csvParseAux_doc (rows : List (List RCell))
    (hok : ∀ r ∈ rows, r ≠ [] ∧ ∀ x ∈ r, RCell.ok x = true) (hne : rows ≠ []) :
    ∀ acc : List (List (List Char)),
    csvParseAux false (joinSep ['\n'] (rows.map (fun r => joinSep [','] (r.map RCell.render)))) [] [] acc
      = acc.reverse ++ rows.map (fun r => r.map RCell.value) := by
  induction rows with
  | nil => exact absurd rfl hne
  | cons r rows' ih =>
    intro acc
    obtain ⟨hr, hrok⟩ := hok r (by simp)
    obtain ⟨c, cs, rfl⟩ : ∃ c cs, r = c :: cs := by
      cases r with
      | nil => exact absurd rfl hr
      | cons c cs => exact ⟨c, cs, rfl⟩
    cases rows' with
    | nil =>
      show csvParseAux false (joinSep [','] ((c :: cs).map RCell.render)) [] [] acc = _
      rw [csvParseAux_row_end c cs hrok [] acc]
      simp
    | cons r2 rows'' =>
      have e1 : joinSep ['\n'] (((c :: cs) :: r2 :: rows'').map (fun r => joinSep [','] (r.map RCell.render)))
          = joinSep [','] ((c :: cs).map RCell.render) ++
            ('\n' :: joinSep ['\n'] ((r2 :: rows'').map (fun r => joinSep [','] (r.map RCell.render)))) := by
        show joinSep [','] ((c :: cs).map RCell.render) ++ ['\n'] ++ _ = _
        simp
      rw [e1, csvParseAux_row_nl c cs hrok _ [] acc]
      simp only [List.reverse_nil, List.nil_append]
      rw [ih (fun x hx => hok x (by simp at hx ⊢; tauto)) (by simp) (((c :: cs).map RCell.value) :: acc)]
      simp

theorem convertToCSV_roundTrip (leads : List EnrichedLead) (hne : leads ≠ [])
    (hok : ∀ lead ∈ leads, rawCellsOk lead = true) :
    csvParse (convertToCSV leads)
      = csvHeaders.map String.toList :: leads.map leadRecovered := by
  obtain ⟨l0, ls, rfl⟩ : ∃ l0 ls, leads = l0 :: ls := by
    cases leads with
    | nil => exact absurd rfl hne
    | cons l0 ls => exact ⟨l0, ls, rfl⟩
  have e : convertToCSV (l0 :: ls)
      = joinSep ['\n'] ((headerRCells :: (l0 :: ls).map leadRCells).map
          (fun r => joinSep [','] (r.map RCell.render))) := by
    show joinSep ['\n']
        (joinSep [','] (csvHeaders.map String.toList) ::
          (l0 :: ls).map (fun lead => joinSep [','] (leadCells lead))) = _
    simp only [List.map_cons, List.map_map, headerRCells]
    rfl
  have hok' : ∀ r ∈ headerRCells :: (l0 :: ls).map leadRCells,
      r ≠ [] ∧ ∀ x ∈ r, RCell.ok x = true := by
    intro r hr
    rcases List.mem_cons.mp hr with rfl | hr
    · refine ⟨by simp [headerRCells, csvHeaders], ?_⟩
      intro x hx
      fin_cases hx <;> decide
    · obtain ⟨lead, hlead, rfl⟩ := List.mem_map.mp hr
      refine ⟨by simp [leadRCells], ?_⟩
      have := hok lead hlead
      simpa [rawCellsOk, List.all_eq_true] using this
  show csvParseAux false (convertToCSV (l0 :: ls)) [] [] [] = _
  rw [e, csvParseAux_doc _ hok' (by simp) []]
  simp only [List.reverse_nil, List.nil_append, List.map_cons, List.map_map]
  rfl

theorem strAppend_ne_empty (p s : String) (hp : p ≠ "") : p ++ s ≠ "" := by
  intro h
  apply hp
  have hd : (p ++ s).data = ([] : List Char) := by rw [h]
  rw [String.data_append] at hd
  rcases List.append_eq_nil.mp hd with ⟨hp', _⟩
  cases p
  simp_all

theorem apolloResultEmail_not_personal (e : Option String) (v : String)
    (h : apolloResultEmail e = some v) : isPersonalEmail v = false := by
  cases e with
  | none => simp [apolloResultEmail, apolloFilterPersonal] at h
  | some s =>
    by_cases hp : isPersonalEmail s
    · by_cases hs : s = ""
      · subst hs
        simp [apolloResultEmail, apolloFilterPersonal] at h
      · simp [apolloResultEmail, apolloFilterPersonal, hs, hp] at h
    · simp only [apolloResultEmail, apolloFilterPersonal] at h
      by_cases hs : s = ""
      · subst hs; simp at h
      · simp [hs, hp] at h
        subst h
        simpa using hp

/-- C1: on the contact set {(x@acme.com, professional, 0.6),
(y@acme.com, verified, 0.4)} the email selection of `enrichContact` picks
`x@acme.com` — the higher-rated `professional` candidate — because the
concatenated priority buckets are re-sorted globally by rating, so category
priority does not outrank a higher raw rating as the specification states. -/
theorem C1_rating_outranks_category :
    (selectBestEmail
      [⟨"email", "x@acme.com", "professional", some (mkRat 6 10)⟩,
       ⟨"email", "y@acme.com", "verified", some (mkRat 4 10)⟩]).map
        (fun c => c.value) = some "x@acme.com"
    ∧ "x@acme.com" ≠ "y@acme.com" := by
  constructor
  · decide
  · decide

/-- C2: a deny-listed personal/free-mail domain is never selected: every
email `selectBestEmail` returns survives `isPersonalEmail`, the Apollo
resolver result does too, and on {(a@gmail.com, verified, 0.99),
(b@acme.com, work, 0.5)} the selection is `b@acme.com`. -/
theorem C2_personal_domains_never_selected :
    (∀ (contacts : List CladoContact) (c : CladoContact),
        selectBestEmail contacts = some c → isPersonalEmail c.value = false)
    ∧ (∀ (e : Option String) (v : String),
        apolloResultEmail e = some v → isPersonalEmail v = false)
    ∧ (selectBestEmail
        [⟨"email", "a@gmail.com", "verified", some (mkRat 99 100)⟩,
         ⟨"email", "b@acme.com", "work", some (mkRat 5 10)⟩]).map
          (fun c => c.value) = some "b@acme.com" :=
  ⟨fun _ _ h => selectBestEmail_not_personal h,
   apolloResultEmail_not_personal,
   by decide⟩

/-- C2 witness: the selected contact of the concrete example is not a
personal-domain address. -/
theorem C2_witness : isPersonalEmail "b@acme.com" = false := by
  have h := C2_personal_domains_never_selected.1
    [⟨"email", "a@gmail.com", "verified", some (mkRat 99 100)⟩,
     ⟨"email", "b@acme.com", "work", some (mkRat 5 10)⟩]
    ⟨"email", "b@acme.com", "work", some (mkRat 5 10)⟩ (by decide)
  simpa using h

/-- C3 counterexample: "Remote, London, USA" contains the deny-list keyword
"london" and the accept keyword "usa", yet `isUSLocation` accepts it — the
remote-with-US branch runs before the non-US indicator scan, so the negative
check does not take precedence over every positive match. -/
theorem C3_counterexample :
    (isUSLocation (some "Remote, London, USA")).isUS = true
    ∧ NON_US_INDICATORS.contains "london" = true
    ∧ jsIncludes (jsTrim (jsToLower "Remote, London, USA")) "london" = true
    ∧ jsIncludes (jsTrim (jsToLower "Remote, London, USA")) "usa" = true := by
  refine ⟨by decide, by decide, by decide, by decide⟩

/-- C3 (amended): for location strings whose normalized text does not contain
"remote", a deny-list keyword match makes `isUSLocation` reject regardless of
any positive US match — the non-US scan runs before every acceptance check
except the earlier remote-with-US branch. -/
theorem C3_nonUS_precedence (s kw : String)
    (hkw : kw ∈ NON_US_INDICATORS)
    (hinc : jsIncludes (jsTrim (jsToLower s)) kw = true)
    (hrem : jsIncludes (jsTrim (jsToLower s)) "remote" = false) :
    (isUSLocation (some s)).isUS = false := by
  unfold isUSLocation
  by_cases h0 : jsTrim s = ""
  · simp [h0]
  · have hA : ¬ (jsTrim (jsToLower s) = "remote" ∨ jsTrim (jsToLower s) = "remote worldwide"
        ∨ jsTrim (jsToLower s) = "fully remote") := by
      rintro (h | h | h) <;> rw [h] at hrem <;> revert hrem <;> decide
    have hB : (jsIncludes (jsTrim (jsToLower s)) "remote" &&
        (jsIncludes (jsTrim (jsToLower s)) "us" || jsIncludes (jsTrim (jsToLower s)) "usa" ||
          jsIncludes (jsTrim (jsToLower s)) "united states")) = false := by
      rw [hrem]; simp
    have hC : ∃ kw', NON_US_INDICATORS.find?
        (fun nonUS => jsIncludes (jsTrim (jsToLower s)) nonUS) = some kw' := by
      cases hfind : NON_US_INDICATORS.find?
          (fun nonUS => jsIncludes (jsTrim (jsToLower s)) nonUS) with
      | some kw' => exact ⟨kw', rfl⟩
      | none =>
        exfalso
        have := List.find?_eq_none.mp hfind kw hkw
        simp [hinc] at this
    obtain ⟨kw', hkw'⟩ := hC
    simp [h0, hA, hB, hkw']

/-- C3 witness: "London, Texas" holds both a deny keyword and a US state, and
is rejected. -/
theorem C3_witness : (isUSLocation (some "London, Texas")).isUS = false :=
  C3_nonUS_precedence "London, Texas" "london" (by decide) (by decide) (by decide)

/-- C4: when a numeric follower count is present the check rejects exactly
outside [100, 5000] and the reason quotes the exact value; when the metric
is absent or unparsable the check always passes. -/
theorem C4_follower_range_spec (m : PublicMetrics) :
    (∀ n : Int, m.followers = some n →
      ((checkFollowerCount m).isValid = false ↔ (n < 100 ∨ 5000 < n))
      ∧ (n < 100 → (checkFollowerCount m).reason
          = "Too few followers: " ++ toString n ++ " (minimum 100)")
      ∧ (5000 < n → (checkFollowerCount m).reason
          = "Too many followers: " ++ toString n ++ " (maximum 5000)"))
    ∧ (m.followers = none → (checkFollowerCount m).isValid = true) := by
  have hrange : ∀ n : Int,
      ((checkRange (some n)).isValid = false ↔ (n < 100 ∨ 5000 < n))
      ∧ (n < 100 → (checkRange (some n)).reason
          = "Too few followers: " ++ toString n ++ " (minimum 100)")
      ∧ (5000 < n → (checkRange (some n)).reason
          = "Too many followers: " ++ toString n ++ " (maximum 5000)") := by
    intro n
    by_cases h1 : n < 100
    · refine ⟨by simp [checkRange, h1], fun _ => by simp [checkRange, h1], fun h2 => ?_⟩
      omega
    · by_cases h2 : n > 5000
      · refine ⟨by simp [checkRange, h1, h2], fun h1' => absurd h1' h1,
          fun _ => by simp [checkRange, h1, h2]⟩
      · refine ⟨?_, fun h1' => absurd h1' h1, fun h2' => absurd h2' h2⟩
        simp [checkRange, h1, h2]
  constructor
  · intro n hn
    cases m with
    | absent => simp [PublicMetrics.followers] at hn
    | emptyStr => simp [PublicMetrics.followers] at hn
    | strInvalid => simp [PublicMetrics.followers] at hn
    | strParsed f =>
      simp only [PublicMetrics.followers] at hn
      subst hn
      exact hrange n
    | objMetrics f =>
      simp only [PublicMetrics.followers] at hn
      subst hn
      exact hrange n
  · intro hn
    cases m with
    | absent => rfl
    | emptyStr => rfl
    | strInvalid => rfl
    | strParsed f =>
      simp only [PublicMetrics.followers] at hn
      subst hn
      rfl
    | objMetrics f =>
      simp only [PublicMetrics.followers] at hn
      subst hn
      rfl

/-- C4 witness: a present count of 7 is rejected; an unparsable metric
passes. -/
theorem C4_witness :
    (checkFollowerCount (.strParsed (some 7))).isValid = false
    ∧ (checkFollowerCount .strInvalid).isValid = true :=
  ⟨((C4_follower_range_spec (.strParsed (some 7))).1 7 rfl).1.mpr (Or.inl (by decide)),
   (C4_follower_range_spec .strInvalid).2 rfl⟩

/-- C5: the qualifier never throws — a batch whose transport fails on every
item still completes with one verdict per item, and every verdict is
REJECT with LOW confidence and a non-empty diagnostic reasoning string. -/
theorem C5_qualifier_soft_failure (outcomes : List LLMOutcome)
    (h : ∀ o ∈ outcomes, o.isFailure = true) :
    (qualifyBatch outcomes).length = outcomes.length
    ∧ ∀ v ∈ qualifyBatch outcomes,
        v.decision = .REJECT ∧ v.confidence = .LOW ∧ v.reasoning ≠ "" := by
  constructor
  · simp [qualifyBatch]
  · intro v hv
    obtain ⟨o, ho, rfl⟩ := List.mem_map.mp hv
    have hf := h o ho
    cases o with
    | fetchThrow msg =>
      exact ⟨rfl, rfl, strAppend_ne_empty "Error during analysis: " msg (by decide)⟩
    | httpError status =>
      exact ⟨rfl, rfl, strAppend_ne_empty "OpenRouter API error: " (toString status) (by decide)⟩
    | providerError msg =>
      exact ⟨rfl, rfl, strAppend_ne_empty "Provider error: " _ (by decide)⟩
    | noContent => exact ⟨rfl, rfl, by decide⟩
    | content parsed =>
      cases parsed with
      | error msg =>
        exact ⟨rfl, rfl, strAppend_ne_empty "Error during analysis: " msg (by decide)⟩
      | ok r => simp [LLMOutcome.isFailure] at hf

/-- C5 witness: a one-item batch whose transport returned HTTP 500. -/
theorem C5_witness :
    (qualifyBatch [LLMOutcome.httpError 500]).length = [LLMOutcome.httpError 500].length
    ∧ ∀ v ∈ qualifyBatch [LLMOutcome.httpError 500],
        v.decision = .REJECT ∧ v.confidence = .LOW ∧ v.reasoning ≠ "" :=
  C5_qualifier_soft_failure [LLMOutcome.httpError 500] (by decide)

/-- C6: a lead is SUCCESS exactly when the resolver returned a contact with a
truthy email; otherwise it is FAILED and carries an error text, and a
contact with a phone but no email is still FAILED with "No email found". -/
theorem C6_success_iff_email (profile : LinkedInProfile) (icp : ICPFilterResult)
    (outcome : Except String ContactData) :
    ((enrichLead profile icp outcome).enrichment_status = .SUCCESS
        ↔ ∃ c, outcome = .ok c ∧ truthyStr c.email = true)
    ∧ ((enrichLead profile icp outcome).enrichment_status ≠ .SUCCESS →
        (enrichLead profile icp outcome).enrichment_status = .FAILED
        ∧ ∃ msg, (enrichLead profile icp outcome).error = some msg)
    ∧ (∀ c, outcome = .ok c → truthyStr c.email = false →
        (enrichLead profile icp outcome).enrichment_status = .FAILED
        ∧ (enrichLead profile icp outcome).error = some "No email found") := by
  cases outcome with
  | ok contact =>
    by_cases he : truthyStr contact.email
    · refine ⟨?_, ?_, ?_⟩
      · simp [enrichLead, he]
      · intro hne
        exact absurd (by simp [enrichLead, he]) hne
      · intro c hc hfalse
        rw [Except.ok.injEq] at hc
        subst hc
        rw [he] at hfalse
        cases hfalse
    · refine ⟨?_, ?_, ?_⟩
      · simp only [enrichLead, he, if_false, Bool.false_eq_true]
        constructor
        · intro h; cases h
        · rintro ⟨c, hc, htr⟩
          rw [Except.ok.injEq] at hc
          subst hc
          simp [he] at htr
      · intro _
        exact ⟨by simp [enrichLead, he], "No email found", by simp [enrichLead, he]⟩
      · intro c hc _
        rw [Except.ok.injEq] at hc
        subst hc
        exact ⟨by simp [enrichLead, he], by simp [enrichLead, he]⟩
  | error msg =>
    refine ⟨?_, ?_, ?_⟩
    · simp [enrichLead]
    · intro _
      exact ⟨rfl, msg, rfl⟩
    · intro c hc
      cases hc

/-- C6 witness: a resolver result with a phone number but no email is
FAILED. -/
theorem C6_witness :
    (enrichLead ⟨"Jane", "CTO", "url", none, none⟩ ⟨.ACCEPT, "fit", .HIGH, none⟩
        (Except.ok ⟨none, none, none, some "+1-555-0100", some 80⟩)).enrichment_status
      = .FAILED :=
  ((C6_success_iff_email ⟨"Jane", "CTO", "url", none, none⟩ ⟨.ACCEPT, "fit", .HIGH, none⟩
      (Except.ok ⟨none, none, none, some "+1-555-0100", some 80⟩)).2.2
    ⟨none, none, none, some "+1-555-0100", some 80⟩ rfl (by decide)).1

set_option maxRecDepth 100000 in
/-- C7 counterexample: a lead whose name contains an embedded comma is not
quoted by `convertToCSV`, so re-parsing splits the name cell — the first
cell of the data row comes back as "Doe", not "Doe, John". -/
theorem C7_counterexample :
    (((csvParse (convertToCSV
        [⟨⟨"Doe, John", "headline", "url", none, none⟩,
          ⟨.ACCEPT, "ok", .HIGH, none⟩, emptyContact, .SUCCESS, none⟩])).getD 1 []).getD 0 [])
      = "Doe".toList
    ∧ "Doe, John".toList ≠ "Doe".toList := by
  refine ⟨by decide, by decide⟩

set_option maxRecDepth 100000 in
/-- C7 witness: on a lead whose unquoted cells are delimiter-free, the round
trip recovers every cell — including a headline with embedded commas, quotes
and a newline. -/
theorem C7_witness :
    csvParse (convertToCSV
        [⟨⟨"Jane Doe", "Founder, \"CTO\"\nBuilder", "url", some "like", none⟩,
          ⟨.ACCEPT, "fits, clearly", .HIGH, none⟩, emptyContact, .SUCCESS, none⟩])
      = csvHeaders.map String.toList ::
        [⟨⟨"Jane Doe", "Founder, \"CTO\"\nBuilder", "url", some "like", none⟩,
          ⟨.ACCEPT, "fits, clearly", .HIGH, none⟩, emptyContact, .SUCCESS, none⟩].map
          leadRecovered :=
  convertToCSV_roundTrip _ (by simp) (by decide)

/-- C8: resuming from an `enriching` checkpoint with cursor `k` (whose saved
results are the enriched first `k` leads followed by the pending rest)
enriches only the suffix `[k, n)` and produces exactly the list a single
uninterrupted `handleEnrich` run over `[0, n)` produces, in the same
order. -/
theorem C8_resume_equiv {α : Type} (f : α → α) (leads : List α) (k : Nat)
    (hk : k ≤ leads.length) :
    resumeEnrichingModel f (checkpointResults f leads k) k
      = (checkpointResults f leads k).take k
        ++ ((checkpointResults f leads k).drop k).map f
    ∧ resumeEnrichingModel f (checkpointResults f leads k) k
      = handleEnrichModel f leads := by
  have hlen : ((leads.take k).map f).length = k := by
    simp [List.length_take]
    omega
  have htake : (checkpointResults f leads k).take k = (leads.take k).map f := by
    unfold checkpointResults
    exact List.take_left' hlen
  have hdrop : (checkpointResults f leads k).drop k = leads.drop k := by
    unfold checkpointResults
    exact List.drop_left' hlen
  unfold resumeEnrichingModel
  rw [htake, hdrop, handleEnrichModel_eq_map, handleEnrichModel_eq_map]
  refine ⟨rfl, ?_⟩
  rw [← List.map_append, List.take_append_drop]

/-- C8 witness: resuming a 7-lead run from cursor 5 equals the unbroken
run. -/
theorem C8_witness :
    resumeEnrichingModel (fun n => n + 1) (checkpointResults (fun n => n + 1) [10, 20, 30, 40, 50, 60, 70] 5) 5
      = handleEnrichModel (fun n => n + 1) [10, 20, 30, 40, 50, 60, 70] :=
  (C8_resume_equiv (fun n => n + 1) [10, 20, 30, 40, 50, 60, 70] 5 (by decide)).2

/-- C9: `loadProgress` yields a checkpoint exactly when the stored value
parses and its `savedAt` is less than 24 hours before `now`; an absent or
unreadable store, or a stale timestamp, yields `null`. -/
theorem C9_checkpoint_staleness (now : Int) (stored : StoredValue) (s : SavedState) :
    (loadProgress now stored = some s
        ↔ stored = .valid s ∧ now - s.savedAt < 24 * 60 * 60 * 1000)
    ∧ loadProgress now .absent = none
    ∧ loadProgress now .corrupt = none := by
  refine ⟨?_, rfl, rfl⟩
  cases stored with
  | absent => simp [loadProgress]
  | corrupt => simp [loadProgress]
  | valid t =>
    by_cases h : now - t.savedAt < 24 * 60 * 60 * 1000
    · simp only [loadProgress, if_pos h, Option.some.injEq, StoredValue.valid.injEq]
      constructor
      · rintro rfl
        exact ⟨rfl, h⟩
      · rintro ⟨rfl, _⟩
        rfl
    · simp only [loadProgress, if_neg h]
      constructor
      · rintro ⟨⟩
      · rintro ⟨heq, hc⟩
        cases heq
        exact absurd hc h

/-- C9 witness: a checkpoint saved 25 hours ago is discarded, one saved an
hour ago is returned. -/
theorem C9_witness :
    loadProgress (25 * 60 * 60 * 1000) (.valid ⟨"enriching", 40, 0⟩) = none
    ∧ loadProgress (60 * 60 * 1000) (.valid ⟨"enriching", 40, 0⟩)
        = some ⟨"enriching", 40, 0⟩ := by
  constructor
  · cases hl : loadProgress (25 * 60 * 60 * 1000) (.valid ⟨"enriching", 40, 0⟩) with
    | none => rfl
    | some s =>
      have := (C9_checkpoint_staleness (25 * 60 * 60 * 1000) (.valid ⟨"enriching", 40, 0⟩) s).1.mp hl
      obtain ⟨heq, hc⟩ := this
      cases heq
      simp at hc
  · exact ((C9_checkpoint_staleness (60 * 60 * 1000) (.valid ⟨"enriching", 40, 0⟩)
      ⟨"enriching", 40, 0⟩).1.mpr ⟨rfl, by decide⟩)

/-- C10: the batch filter route answers 400 — qualifying nothing — on a
non-array, empty, or oversized `profiles` payload, and never qualifies more
than `MAX_PROFILES_PER_REQUEST` profiles in one call. -/
theorem C10_profile_cap (hasKey : Bool) (profiles : Option (List LinkedInProfile))
    (verdictOf : LinkedInProfile → ICPFilterResult) :
    (hasKey = true → profiles = none →
      filterRoutePost hasKey profiles verdictOf
        = .err 400 "Invalid request: profiles must be an array")
    ∧ (hasKey = true → profiles = some [] →
      filterRoutePost hasKey profiles verdictOf
        = .err 400 "No profiles provided for filtering")
    ∧ (∀ l, hasKey = true → profiles = some l → l.length > MAX_PROFILES_PER_REQUEST →
      filterRoutePost hasKey profiles verdictOf
        = .err 400 "Too many profiles. Please send max 10 profiles per request. Call this endpoint multiple times for larger batches.")
    ∧ (filterRoutePost hasKey profiles verdictOf).processedCount
        ≤ MAX_PROFILES_PER_REQUEST := by
  refine ⟨?_, ?_, ?_, ?_⟩
  · rintro rfl rfl
    rfl
  · rintro rfl rfl
    rfl
  · rintro l rfl rfl hlen
    simp only [filterRoutePost, Bool.not_true, Bool.false_eq_true, if_false]
    rw [if_neg (by omega), if_pos hlen]
  · cases hasKey with
    | false => simp [filterRoutePost, FilterRouteResponse.processedCount, MAX_PROFILES_PER_REQUEST]
    | true =>
      cases profiles with
      | none => simp [filterRoutePost, FilterRouteResponse.processedCount, MAX_PROFILES_PER_REQUEST]
      | some l =>
        by_cases h0 : l.length = 0
        · simp [filterRoutePost, h0, FilterRouteResponse.processedCount, MAX_PROFILES_PER_REQUEST]
        · by_cases hcap : l.length > MAX_PROFILES_PER_REQUEST
          · simp [filterRoutePost, h0, hcap, FilterRouteResponse.processedCount]
          · have hres : ((chunksOf 3 l).map
                (List.map (fun p => (p, verdictOf p)))).flatten
                  = l.map (fun p => (p, verdictOf p)) :=
              chunksOf_map_join 3 _ l (fun _ => rfl)
            simp only [filterRoutePost, Bool.not_true, Bool.false_eq_true, if_false,
              if_neg h0, if_neg hcap, FilterRouteResponse.processedCount, hres,
              List.length_map]
            omega

/-- C10 witness: a request whose `profiles` is not an array gets a 400. -/
theorem C10_witness :
    filterRoutePost true none (fun _ => ⟨.REJECT, "x", .LOW, none⟩)
      = .err 400 "Invalid request: profiles must be an array" :=
  (C10_profile_cap true none (fun _ => ⟨.REJECT, "x", .LOW, none⟩)).1 rfl rfl

end GrowthTools
